import Mathlib

/-!
Shallow embedding of the SecretDeal contract
(src/contracts/SecretDeal.sol) and proofs about its lifecycle
operations.

Modeling conventions:
* Ethereum addresses are naturals; 0 models address(0).  On chain the
  sender of a transaction is never address(0), so the reachability
  predicate only steps with commands whose sender is nonzero.
* Solidity strings are modeled as byte lists (List Nat); the source
  checks bytes(s).length, modeled here as List.length.
* The encrypted euint32 handle is opaque; FHE.fromExternal and the
  access-control calls (FHE.allowThis, FHE.allow) do not touch the
  contract storage and are not modeled.
* The only arithmetic is the dealCounter increment, modeled on Nat
  (Solidity 0.8 checked arithmetic would revert at 2^256, which no
  sequence of calls can reach, so no wrap-around is modeled).
* A reverted call leaves storage unchanged; exec therefore returns the
  input state when an operation reports an error.
-/

namespace SecretDeal

def MAX_DEAL_NAME_LENGTH : Nat := 256

def MAX_PARTIES_PER_DEAL : Nat := 100

/-- Offer struct of the source (party, encryptedValue, title,
description, timestamp, revealed). -/
structure Offer where
  party : Nat
  encryptedValue : Nat
  title : List Nat
  description : List Nat
  timestamp : Nat
  revealed : Bool
deriving DecidableEq, Repr

/-- Zero-initialized Offer, the value a Solidity mapping yields for an
absent key. -/
def Offer.zero : Offer := ⟨0, 0, [], [], 0, false⟩

/-- Deal struct of the source. -/
structure Deal where
  dealName : List Nat
  requiredParties : Nat
  createdAt : Nat
  finalized : Bool
  cancelled : Bool
  creator : Nat
  parties : List Nat
deriving DecidableEq, Repr

/-- Zero-initialized Deal, the value a Solidity mapping yields for an
absent key. -/
def Deal.zero : Deal := ⟨[], 0, 0, false, false, 0, []⟩

/-- Contract storage: dealCounter plus the four mappings. -/
structure ContractState where
  dealCounter : Nat
  deals : Nat → Deal
  offers : Nat → Nat → Offer
  offerCount : Nat → Nat
  partyDeals : Nat → List Nat

/-- Error kinds, one per revert string of the source:
AtLeastOnePartyRequired = "At least one party required",
TooManyRequiredParties = "Too many required parties",
EmptyDealName = "Deal name cannot be empty",
DealNameTooLong = "Deal name too long",
AlreadyFinalized = "Deal already finalized",
DealIsCancelled = "Deal has been cancelled",
DuplicateOffer = "Offer already submitted",
EmptyTitle = "Title cannot be empty",
PartyLimitReached = "Maximum parties reached",
OfferNotFound = "No offer found for this address",
AlreadyRevealed = "Offer already revealed",
RevealsIncomplete = "Not all offers revealed",
NoOffers = "No offers submitted",
CannotCancelFinalized = "Cannot cancel finalized deal",
AlreadyCancelled = "Deal already cancelled",
Unauthorized = "Only creator can cancel deal". -/
inductive DealError where
  | AtLeastOnePartyRequired
  | TooManyRequiredParties
  | EmptyDealName
  | DealNameTooLong
  | AlreadyFinalized
  | DealIsCancelled
  | DuplicateOffer
  | EmptyTitle
  | PartyLimitReached
  | OfferNotFound
  | AlreadyRevealed
  | RevealsIncomplete
  | NoOffers
  | CannotCancelFinalized
  | AlreadyCancelled
  | Unauthorized
deriving DecidableEq, Repr

/-- The InvalidInput class of the specification: the four
creation-argument errors of createDeal. -/
def DealError.isInvalidInput : DealError → Bool
  | DealError.AtLeastOnePartyRequired => true
  | DealError.TooManyRequiredParties => true
  | DealError.EmptyDealName => true
  | DealError.DealNameTooLong => true
  | _ => false

/-- Whether a call result is a success. -/
def isOk {α : Type} : Except DealError α → Bool
  | Except.ok _ => true
  | Except.error _ => false

@[simp] theorem isOk_ok {α : Type} (a : α) : isOk (Except.ok a) = true := rfl

@[simp] theorem isOk_error {α : Type} (e : DealError) :
    isOk (α := α) (Except.error e) = false := rfl

/-- createDeal, lines 91-112 of the source.  Guards in source order;
on success allocates id dealCounter, bumps the counter, sets the six
scalar fields of the Deal record (the parties array is not assigned,
exactly as in the source) and returns the id. -/
def createDeal (s : ContractState) (sender : Nat) (dealName : List Nat)
    (requiredParties ts : Nat) : Except DealError (ContractState × Nat) :=
  if 0 < requiredParties then
    if requiredParties ≤ MAX_PARTIES_PER_DEAL then
      if 0 < dealName.length then
        if dealName.length ≤ MAX_DEAL_NAME_LENGTH then
          Except.ok
            ({ s with
                dealCounter := s.dealCounter + 1,
                deals := fun i =>
                  if i = s.dealCounter then
                    { s.deals s.dealCounter with
                        dealName := dealName,
                        requiredParties := requiredParties,
                        createdAt := ts,
                        finalized := false,
                        cancelled := false,
                        creator := sender }
                  else s.deals i },
              s.dealCounter)
        else Except.error DealError.DealNameTooLong
      else Except.error DealError.EmptyDealName
    else Except.error DealError.TooManyRequiredParties
  else Except.error DealError.AtLeastOnePartyRequired

/-- submitOffer, lines 120-161 of the source.  Guards in source order;
on success stores the Offer keyed by (dealId, sender), appends sender
to the parties of the deal, increments the per-deal offer count and
appends dealId to the senders deal index.  The encrypted input handle
is opaque and stored as given. -/
def submitOffer (s : ContractState) (sender dealId inputVal : Nat)
    (title description : List Nat) (ts : Nat) : Except DealError ContractState :=
  if (s.deals dealId).finalized then Except.error DealError.AlreadyFinalized
  else if (s.deals dealId).cancelled then Except.error DealError.DealIsCancelled
  else if (s.offers dealId sender).party = 0 then
    if 0 < title.length then
      if (s.deals dealId).parties.length < MAX_PARTIES_PER_DEAL then
        Except.ok
          { s with
              offers := fun d p =>
                if d = dealId then
                  if p = sender then ⟨sender, inputVal, title, description, ts, false⟩
                  else s.offers d p
                else s.offers d p,
              deals := fun i =>
                if i = dealId then
                  { s.deals dealId with parties := (s.deals dealId).parties ++ [sender] }
                else s.deals i,
              offerCount := fun d =>
                if d = dealId then s.offerCount d + 1 else s.offerCount d,
              partyDeals := fun p =>
                if p = sender then s.partyDeals p ++ [dealId] else s.partyDeals p }
      else Except.error DealError.PartyLimitReached
    else Except.error DealError.EmptyTitle
  else Except.error DealError.DuplicateOffer

/-- revealOffer, lines 165-175 of the source.  Guards in source order;
on success flips the revealed flag of the offer keyed by
(dealId, sender). -/
def revealOffer (s : ContractState) (sender dealId : Nat) :
    Except DealError ContractState :=
  if (s.offers dealId sender).party = sender then
    if (s.offers dealId sender).revealed then Except.error DealError.AlreadyRevealed
    else if (s.deals dealId).cancelled then Except.error DealError.DealIsCancelled
    else
      Except.ok
        { s with
            offers := fun d p =>
              if d = dealId then
                if p = sender then { s.offers dealId sender with revealed := true }
                else s.offers d p
              else s.offers d p }
  else Except.error DealError.OfferNotFound

/-- areAllOffersRevealed, lines 303-317 of the source: false on an
empty parties list, otherwise whether every listed party has a
revealed offer. -/
def areAllOffersRevealed (s : ContractState) (dealId : Nat) : Bool :=
  if (s.deals dealId).parties.length = 0 then false
  else (s.deals dealId).parties.all fun p => (s.offers dealId p).revealed

/-- finalizeDeal, lines 179-190 of the source.  Guards in source
order; the caller identity is not inspected; on success sets the
finalized flag. -/
def finalizeDeal (s : ContractState) (sender dealId : Nat) :
    Except DealError ContractState :=
  if (s.deals dealId).finalized then Except.error DealError.AlreadyFinalized
  else if (s.deals dealId).cancelled then Except.error DealError.DealIsCancelled
  else if areAllOffersRevealed s dealId then
    if 0 < (s.deals dealId).parties.length then
      Except.ok
        { s with
            deals := fun i =>
              if i = dealId then { s.deals dealId with finalized := true }
              else s.deals i }
    else Except.error DealError.NoOffers
  else Except.error DealError.RevealsIncomplete

/-- cancelDeal, lines 194-204 of the source.  Guards in source order;
on success sets the cancelled flag. -/
def cancelDeal (s : ContractState) (sender dealId : Nat) :
    Except DealError ContractState :=
  if (s.deals dealId).creator = sender then
    if (s.deals dealId).finalized then Except.error DealError.CannotCancelFinalized
    else if (s.deals dealId).cancelled then Except.error DealError.AlreadyCancelled
    else
      Except.ok
        { s with
            deals := fun i =>
              if i = dealId then { s.deals dealId with cancelled := true }
              else s.deals i }
  else Except.error DealError.Unauthorized

/-- Return type of the getDeal view, lines 223-242 of the source. -/
structure DealView where
  dealName : List Nat
  parties : List Nat
  requiredParties : Nat
  createdAt : Nat
  finalized : Bool
  cancelled : Bool
  creator : Nat
deriving DecidableEq, Repr

/-- getDeal, lines 223-242 of the source: a view with no guard at all,
it returns the stored (possibly zero-initialized) record and never
reverts. -/
def getDeal (s : ContractState) (dealId : Nat) : Except DealError DealView :=
  Except.ok
    ⟨(s.deals dealId).dealName, (s.deals dealId).parties,
      (s.deals dealId).requiredParties, (s.deals dealId).createdAt,
      (s.deals dealId).finalized, (s.deals dealId).cancelled,
      (s.deals dealId).creator⟩

/-- One state-changing transaction against the contract. -/
inductive Cmd where
  | create (sender : Nat) (dealName : List Nat) (requiredParties ts : Nat)
  | submit (sender dealId inputVal : Nat) (title description : List Nat) (ts : Nat)
  | reveal (sender dealId : Nat)
  | finalize (sender dealId : Nat)
  | cancel (sender dealId : Nat)

/-- The transaction sender of a command. -/
def Cmd.sender : Cmd → Nat
  | Cmd.create a _ _ _ => a
  | Cmd.submit a _ _ _ _ _ => a
  | Cmd.reveal a _ => a
  | Cmd.finalize a _ => a
  | Cmd.cancel a _ => a

/-- Commit a pair-returning call: keep the new state on success,
revert (keep the old state) on error. -/
def commitP (s : ContractState) : Except DealError (ContractState × Nat) → ContractState
  | Except.ok p => p.1
  | Except.error _ => s

/-- Commit a state-returning call: keep the new state on success,
revert (keep the old state) on error. -/
def commit (s : ContractState) : Except DealError ContractState → ContractState
  | Except.ok s₂ => s₂
  | Except.error _ => s

@[simp] theorem commitP_ok (s : ContractState) (p : ContractState × Nat) :
    commitP s (Except.ok p) = p.1 := rfl

@[simp] theorem commitP_error (s : ContractState) (e : DealError) :
    commitP s (Except.error e) = s := rfl

@[simp] theorem commit_ok (s s₂ : ContractState) :
    commit s (Except.ok s₂) = s₂ := rfl

@[simp] theorem commit_error (s : ContractState) (e : DealError) :
    commit s (Except.error e) = s := rfl

/-- Execute one transaction with revert semantics. -/
def exec (s : ContractState) : Cmd → ContractState
  | Cmd.create a n rp ts => commitP s (createDeal s a n rp ts)
  | Cmd.submit a d v t dsc ts => commit s (submitOffer s a d v t dsc ts)
  | Cmd.reveal a d => commit s (revealOffer s a d)
  | Cmd.finalize a d => commit s (finalizeDeal s a d)
  | Cmd.cancel a d => commit s (cancelDeal s a d)

/-- Freshly deployed contract: counter 0, all mappings
zero-initialized. -/
def initialState : ContractState :=
  ⟨0, fun _ => Deal.zero, fun _ _ => Offer.zero, fun _ => 0, fun _ => []⟩

/-- Run a list of transactions from the freshly deployed contract. -/
def run (cs : List Cmd) : ContractState := cs.foldl exec initialState

/-- States reachable by transactions whose sender is not address(0),
which is every state the deployed contract can be in. -/
inductive Reachable : ContractState → Prop where
  | init : Reachable initialState
  | step {s : ContractState} {c : Cmd} :
      Reachable s → c.sender ≠ 0 → Reachable (exec s c)

/-! Characterization lemmas: when each operation succeeds and what the
successful state looks like, read off the definitions above. -/

theorem createDeal_ok_iff (s : ContractState) (sender : Nat) (n : List Nat)
    (rp ts : Nat) :
    isOk (createDeal s sender n rp ts) = true ↔
      (0 < rp ∧ rp ≤ 100 ∧ 0 < n.length ∧ n.length ≤ 256) := by
  unfold createDeal
  split_ifs with h1 h2 h3 h4 <;>
    simp_all [MAX_PARTIES_PER_DEAL, MAX_DEAL_NAME_LENGTH]

theorem createDeal_ok_dest (s : ContractState) (sender : Nat) (n : List Nat)
    (rp ts : Nat) (p : ContractState × Nat)
    (h : createDeal s sender n rp ts = Except.ok p) :
    p.2 = s.dealCounter ∧
    p.1.dealCounter = s.dealCounter + 1 ∧
    p.1.deals s.dealCounter =
      { s.deals s.dealCounter with
          dealName := n, requiredParties := rp, createdAt := ts,
          finalized := false, cancelled := false, creator := sender } ∧
    (∀ d, d ≠ s.dealCounter → p.1.deals d = s.deals d) ∧
    p.1.offers = s.offers ∧ p.1.offerCount = s.offerCount ∧
    p.1.partyDeals = s.partyDeals := by
  unfold createDeal at h
  split_ifs at h
  injection h with h
  subst h
  refine ⟨rfl, rfl, by simp, fun d hd => by simp [hd], rfl, rfl, rfl⟩

theorem createDeal_error_invalid (s : ContractState) (sender : Nat)
    (n : List Nat) (rp ts : Nat) (e : DealError)
    (h : createDeal s sender n rp ts = Except.error e) :
    e.isInvalidInput = true := by
  unfold createDeal at h
  split_ifs at h <;> injection h with h <;> subst h <;> rfl

theorem submitOffer_ok_iff (s : ContractState) (sender dealId v : Nat)
    (t dsc : List Nat) (ts : Nat) :
    isOk (submitOffer s sender dealId v t dsc ts) = true ↔
      ((s.deals dealId).finalized = false ∧ (s.deals dealId).cancelled = false ∧
        (s.offers dealId sender).party = 0 ∧ 0 < t.length ∧
        (s.deals dealId).parties.length < 100) := by
  unfold submitOffer
  split_ifs with h1 h2 h3 h4 h5 <;> simp_all [MAX_PARTIES_PER_DEAL]

theorem submitOffer_ok_dest (s : ContractState) (sender dealId v : Nat)
    (t dsc : List Nat) (ts : Nat) (s₂ : ContractState)
    (h : submitOffer s sender dealId v t dsc ts = Except.ok s₂) :
    s₂.dealCounter = s.dealCounter ∧
    s₂.offers dealId sender = ⟨sender, v, t, dsc, ts, false⟩ ∧
    (∀ d p, ¬(d = dealId ∧ p = sender) → s₂.offers d p = s.offers d p) ∧
    s₂.deals dealId =
      { s.deals dealId with parties := (s.deals dealId).parties ++ [sender] } ∧
    (∀ d, d ≠ dealId → s₂.deals d = s.deals d) ∧
    s₂.offerCount dealId = s.offerCount dealId + 1 ∧
    (∀ d, d ≠ dealId → s₂.offerCount d = s.offerCount d) ∧
    s₂.partyDeals sender = s.partyDeals sender ++ [dealId] ∧
    (∀ p, p ≠ sender → s₂.partyDeals p = s.partyDeals p) := by
  unfold submitOffer at h
  split_ifs at h
  injection h with h
  subst h
  refine ⟨rfl, by simp, ?_, by simp, fun d hd => by simp [hd], by simp,
    fun d hd => by simp [hd], by simp, fun p hp => by simp [hp]⟩
  intro d p hdp
  by_cases hd : d = dealId
  · subst hd
    have hp : p ≠ sender := by tauto
    simp [hp]
  · simp [hd]

theorem submitOffer_guards_of_ok (s : ContractState) (sender dealId v : Nat)
    (t dsc : List Nat) (ts : Nat) (s₂ : ContractState)
    (h : submitOffer s sender dealId v t dsc ts = Except.ok s₂) :
    (s.deals dealId).finalized = false ∧ (s.deals dealId).cancelled = false ∧
    (s.offers dealId sender).party = 0 ∧ 0 < t.length ∧
    (s.deals dealId).parties.length < 100 := by
  have := (submitOffer_ok_iff s sender dealId v t dsc ts).mp (by simp [h, isOk])
  exact this

theorem submitOffer_error_duplicate (s : ContractState) (sender dealId v : Nat)
    (t dsc : List Nat) (ts : Nat)
    (hf : (s.deals dealId).finalized = false)
    (hc : (s.deals dealId).cancelled = false)
    (hp : (s.offers dealId sender).party ≠ 0) :
    submitOffer s sender dealId v t dsc ts = Except.error DealError.DuplicateOffer := by
  unfold submitOffer
  simp [hf, hc, hp]

theorem revealOffer_ok_iff (s : ContractState) (sender dealId : Nat) :
    isOk (revealOffer s sender dealId) = true ↔
      ((s.offers dealId sender).party = sender ∧
        (s.offers dealId sender).revealed = false ∧
        (s.deals dealId).cancelled = false) := by
  unfold revealOffer
  split_ifs with h1 h2 h3 <;> simp_all

theorem revealOffer_ok_dest (s : ContractState) (sender dealId : Nat)
    (s₂ : ContractState) (h : revealOffer s sender dealId = Except.ok s₂) :
    s₂.dealCounter = s.dealCounter ∧
    s₂.offers dealId sender = { s.offers dealId sender with revealed := true } ∧
    (∀ d p, ¬(d = dealId ∧ p = sender) → s₂.offers d p = s.offers d p) ∧
    s₂.deals = s.deals ∧ s₂.offerCount = s.offerCount ∧
    s₂.partyDeals = s.partyDeals := by
  unfold revealOffer at h
  split_ifs at h
  injection h with h
  subst h
  refine ⟨rfl, by simp, ?_, rfl, rfl, rfl⟩
  intro d p hdp
  by_cases hd : d = dealId
  · subst hd
    have hp : p ≠ sender := by tauto
    simp [hp]
  · simp [hd]

theorem revealOffer_guards_of_ok (s : ContractState) (sender dealId : Nat)
    (s₂ : ContractState) (h : revealOffer s sender dealId = Except.ok s₂) :
    (s.offers dealId sender).party = sender ∧
    (s.offers dealId sender).revealed = false ∧
    (s.deals dealId).cancelled = false := by
  exact (revealOffer_ok_iff s sender dealId).mp (by simp [h, isOk])

theorem revealOffer_error_already (s : ContractState) (sender dealId : Nat)
    (hp : (s.offers dealId sender).party = sender)
    (hr : (s.offers dealId sender).revealed = true) :
    revealOffer s sender dealId = Except.error DealError.AlreadyRevealed := by
  unfold revealOffer
  simp [hp, hr]

theorem areAllOffersRevealed_iff (s : ContractState) (dealId : Nat) :
    areAllOffersRevealed s dealId = true ↔
      ((s.deals dealId).parties ≠ [] ∧
        ∀ p ∈ (s.deals dealId).parties, (s.offers dealId p).revealed = true) := by
  unfold areAllOffersRevealed
  split_ifs with h
  · simp_all [List.length_eq_zero]
  · rw [List.length_eq_zero] at h
    simp [List.all_eq_true, h]

theorem finalizeDeal_ok_iff (s : ContractState) (sender dealId : Nat) :
    isOk (finalizeDeal s sender dealId) = true ↔
      ((s.deals dealId).finalized = false ∧ (s.deals dealId).cancelled = false ∧
        areAllOffersRevealed s dealId = true) := by
  unfold finalizeDeal
  split_ifs with h1 h2 h3 h4 <;> simp_all
  exact ((areAllOffersRevealed_iff s dealId).mp h3).1 h4

theorem finalizeDeal_ok_dest (s : ContractState) (sender dealId : Nat)
    (s₂ : ContractState) (h : finalizeDeal s sender dealId = Except.ok s₂) :
    s₂.dealCounter = s.dealCounter ∧
    s₂.deals dealId = { s.deals dealId with finalized := true } ∧
    (∀ d, d ≠ dealId → s₂.deals d = s.deals d) ∧
    s₂.offers = s.offers ∧ s₂.offerCount = s.offerCount ∧
    s₂.partyDeals = s.partyDeals := by
  unfold finalizeDeal at h
  split_ifs at h
  injection h with h
  subst h
  exact ⟨rfl, by simp, fun d hd => by simp [hd], rfl, rfl, rfl⟩

theorem finalizeDeal_guards_of_ok (s : ContractState) (sender dealId : Nat)
    (s₂ : ContractState) (h : finalizeDeal s sender dealId = Except.ok s₂) :
    (s.deals dealId).finalized = false ∧ (s.deals dealId).cancelled = false ∧
    areAllOffersRevealed s dealId = true := by
  exact (finalizeDeal_ok_iff s sender dealId).mp (by simp [h, isOk])

theorem finalizeDeal_never_noOffers (s : ContractState) (sender dealId : Nat) :
    finalizeDeal s sender dealId ≠ Except.error DealError.NoOffers := by
  unfold finalizeDeal
  split_ifs with h1 h2 h3 h4 <;> simp_all
  exact ((areAllOffersRevealed_iff s dealId).mp h3).1 h4

theorem cancelDeal_ok_iff (s : ContractState) (sender dealId : Nat) :
    isOk (cancelDeal s sender dealId) = true ↔
      ((s.deals dealId).creator = sender ∧ (s.deals dealId).finalized = false ∧
        (s.deals dealId).cancelled = false) := by
  unfold cancelDeal
  split_ifs with h1 h2 h3 <;> simp_all

theorem cancelDeal_ok_dest (s : ContractState) (sender dealId : Nat)
    (s₂ : ContractState) (h : cancelDeal s sender dealId = Except.ok s₂) :
    s₂.dealCounter = s.dealCounter ∧
    s₂.deals dealId = { s.deals dealId with cancelled := true } ∧
    (∀ d, d ≠ dealId → s₂.deals d = s.deals d) ∧
    s₂.offers = s.offers ∧ s₂.offerCount = s.offerCount ∧
    s₂.partyDeals = s.partyDeals := by
  unfold cancelDeal at h
  split_ifs at h
  injection h with h
  subst h
  exact ⟨rfl, by simp, fun d hd => by simp [hd], rfl, rfl, rfl⟩

theorem cancelDeal_guards_of_ok (s : ContractState) (sender dealId : Nat)
    (s₂ : ContractState) (h : cancelDeal s sender dealId = Except.ok s₂) :
    (s.deals dealId).creator = sender ∧ (s.deals dealId).finalized = false ∧
    (s.deals dealId).cancelled = false := by
  exact (cancelDeal_ok_iff s sender dealId).mp (by simp [h, isOk])

theorem cancelDeal_error_unauthorized (s : ContractState) (sender dealId : Nat)
    (h : (s.deals dealId).creator ≠ sender) :
    cancelDeal s sender dealId = Except.error DealError.Unauthorized := by
  unfold cancelDeal
  simp [h]

/-! Stability lemmas: facts preserved by every transaction. -/

theorem dealCounter_le_exec (s : ContractState) (c : Cmd) :
    s.dealCounter ≤ (exec s c).dealCounter := by
  cases c with
  | create a n rp ts =>
    simp only [exec]
    cases hr : createDeal s a n rp ts with
    | ok q =>
      rw [commitP_ok, (createDeal_ok_dest s a n rp ts q hr).2.1]
      omega
    | error e => simp
  | submit a d v t dsc ts =>
    simp only [exec]
    cases hr : submitOffer s a d v t dsc ts with
    | ok s₂ => simp [(submitOffer_ok_dest s a d v t dsc ts s₂ hr).1]
    | error e => simp
  | reveal a d =>
    simp only [exec]
    cases hr : revealOffer s a d with
    | ok s₂ => simp [(revealOffer_ok_dest s a d s₂ hr).1]
    | error e => simp
  | finalize a d =>
    simp only [exec]
    cases hr : finalizeDeal s a d with
    | ok s₂ => simp [(finalizeDeal_ok_dest s a d s₂ hr).1]
    | error e => simp
  | cancel a d =>
    simp only [exec]
    cases hr : cancelDeal s a d with
    | ok s₂ => simp [(cancelDeal_ok_dest s a d s₂ hr).1]
    | error e => simp

theorem offer_key_stable (s : ContractState) (c : Cmd) (d p : Nat) (hp : p ≠ 0)
    (h : (s.offers d p).party = p) :
    ((exec s c).offers d p).party = p ∧
    ((s.offers d p).revealed = true → ((exec s c).offers d p).revealed = true) := by
  cases c with
  | create a n rp ts =>
    simp only [exec]
    cases hr : createDeal s a n rp ts with
    | ok q => simp [(createDeal_ok_dest s a n rp ts q hr).2.2.2.2.1, h]
    | error e => simp [h]
  | submit a d' v t dsc ts =>
    simp only [exec]
    cases hr : submitOffer s a d' v t dsc ts with
    | ok s₂ =>
      by_cases hk : d = d' ∧ p = a
      · obtain ⟨h1, h2⟩ := hk
        subst h1
        subst h2
        have hg := (submitOffer_guards_of_ok s p d v t dsc ts s₂ hr).2.2.1
        rw [h] at hg
        exact absurd hg hp
      · have he := (submitOffer_ok_dest s a d' v t dsc ts s₂ hr).2.2.1 d p hk
        simp [he, h]
    | error e => simp [h]
  | reveal a d' =>
    simp only [exec]
    cases hr : revealOffer s a d' with
    | ok s₂ =>
      by_cases hk : d = d' ∧ p = a
      · obtain ⟨h1, h2⟩ := hk
        subst h1
        subst h2
        rw [commit_ok, (revealOffer_ok_dest s p d s₂ hr).2.1]
        exact ⟨h, fun _ => rfl⟩
      · have he := (revealOffer_ok_dest s a d' s₂ hr).2.2.1 d p hk
        simp [he, h]
    | error e => simp [h]
  | finalize a d' =>
    simp only [exec]
    cases hr : finalizeDeal s a d' with
    | ok s₂ => simp [(finalizeDeal_ok_dest s a d' s₂ hr).2.2.2.1, h]
    | error e => simp [h]
  | cancel a d' =>
    simp only [exec]
    cases hr : cancelDeal s a d' with
    | ok s₂ => simp [(cancelDeal_ok_dest s a d' s₂ hr).2.2.2.1, h]
    | error e => simp [h]

theorem offer_key_stable_fold (cs : List Cmd) :
    ∀ s d p, p ≠ 0 → (s.offers d p).party = p →
      ((cs.foldl exec s).offers d p).party = p ∧
      ((s.offers d p).revealed = true →
        ((cs.foldl exec s).offers d p).revealed = true) := by
  induction cs with
  | nil => exact fun s d p _ h => ⟨h, fun hr => hr⟩
  | cons c cs ih =>
    intro s d p hp h
    have h1 := offer_key_stable s c d p hp h
    have h2 := ih (exec s c) d p hp h1.1
    exact ⟨h2.1, fun hr => h2.2 (h1.2 hr)⟩

theorem terminal_deal_stable (s : ContractState) (c : Cmd) (d : Nat)
    (hd : d < s.dealCounter)
    (h : (s.deals d).finalized = true ∨ (s.deals d).cancelled = true) :
    (exec s c).deals d = s.deals d ∧ d < (exec s c).dealCounter := by
  have hcnt := dealCounter_le_exec s c
  refine ⟨?_, lt_of_lt_of_le hd hcnt⟩
  cases c with
  | create a n rp ts =>
    simp only [exec]
    cases hr : createDeal s a n rp ts with
    | ok q => simp [(createDeal_ok_dest s a n rp ts q hr).2.2.2.1 d (Nat.ne_of_lt hd)]
    | error e => simp
  | submit a d' v t dsc ts =>
    simp only [exec]
    cases hr : submitOffer s a d' v t dsc ts with
    | ok s₂ =>
      by_cases hdd : d = d'
      · subst hdd
        have hg := submitOffer_guards_of_ok s a d v t dsc ts s₂ hr
        rcases h with h | h
        · rw [h] at hg
          exact absurd hg.1 (by simp)
        · rw [h] at hg
          exact absurd hg.2.1 (by simp)
      · simp [(submitOffer_ok_dest s a d' v t dsc ts s₂ hr).2.2.2.2.1 d hdd]
    | error e => simp
  | reveal a d' =>
    simp only [exec]
    cases hr : revealOffer s a d' with
    | ok s₂ => simp [(revealOffer_ok_dest s a d' s₂ hr).2.2.2.1]
    | error e => simp
  | finalize a d' =>
    simp only [exec]
    cases hr : finalizeDeal s a d' with
    | ok s₂ =>
      by_cases hdd : d = d'
      · subst hdd
        have hg := finalizeDeal_guards_of_ok s a d s₂ hr
        rcases h with h | h
        · rw [h] at hg
          exact absurd hg.1 (by simp)
        · rw [h] at hg
          exact absurd hg.2.1 (by simp)
      · simp [(finalizeDeal_ok_dest s a d' s₂ hr).2.2.1 d hdd]
    | error e => simp
  | cancel a d' =>
    simp only [exec]
    cases hr : cancelDeal s a d' with
    | ok s₂ =>
      by_cases hdd : d = d'
      · subst hdd
        have hg := cancelDeal_guards_of_ok s a d s₂ hr
        rcases h with h | h
        · rw [h] at hg
          exact absurd hg.2.1 (by simp)
        · rw [h] at hg
          exact absurd hg.2.2 (by simp)
      · simp [(cancelDeal_ok_dest s a d' s₂ hr).2.2.1 d hdd]
    | error e => simp

theorem terminal_deal_stable_fold (cs : List Cmd) :
    ∀ s d, d < s.dealCounter →
      ((s.deals d).finalized = true ∨ (s.deals d).cancelled = true) →
      (cs.foldl exec s).deals d = s.deals d := by
  induction cs with
  | nil => intro s d _ _; rfl
  | cons c cs ih =>
    intro s d hd h
    have h1 := terminal_deal_stable s c d hd h
    rw [List.foldl_cons, ih (exec s c) d h1.2 (by rw [h1.1]; exact h), h1.1]

/-! The reachable-state invariant: the two status flags are never both
set; a stored offer is keyed consistently (its party field is either 0,
meaning absent, or the key it is stored under); a deal with offer count
0 has no offer records; a deal id at or above the counter whose offer
count is 0 still holds the zero-initialized record. -/

def Inv (s : ContractState) : Prop :=
  (∀ d, ¬((s.deals d).finalized = true ∧ (s.deals d).cancelled = true)) ∧
  (∀ d p, (s.offers d p).party = 0 ∨ (s.offers d p).party = p) ∧
  (∀ d, s.offerCount d = 0 → ∀ p, s.offers d p = Offer.zero) ∧
  (∀ d, s.dealCounter ≤ d → s.offerCount d = 0 → s.deals d = Deal.zero)

theorem inv_init : Inv initialState := by
  refine ⟨fun d => ?_, fun d p => Or.inl rfl, fun d _ p => rfl, fun d _ _ => rfl⟩
  intro hh
  exact absurd hh.1 (by simp [initialState, Deal.zero])

theorem inv_step (s : ContractState) (c : Cmd) (hs : Inv s)
    (ha : c.sender ≠ 0) : Inv (exec s c) := by
  obtain ⟨inv1, inv2, inv3, inv4⟩ := hs
  cases c with
  | create a n rp ts =>
    simp only [exec]
    cases hr : createDeal s a n rp ts with
    | error e => exact ⟨inv1, inv2, inv3, inv4⟩
    | ok q =>
      obtain ⟨-, hcnt, hnew, hold, hoff, hocnt, -⟩ :=
        createDeal_ok_dest s a n rp ts q hr
      rw [commitP_ok]
      refine ⟨fun d => ?_, ?_, ?_, fun d hle hc0 => ?_⟩
      · by_cases hdd : d = s.dealCounter
        · subst hdd
          rw [hnew]
          intro hh
          exact absurd hh.1 (by simp)
        · rw [hold d hdd]
          exact inv1 d
      · rw [hoff]
        exact inv2
      · rw [hoff, hocnt]
        exact inv3
      · rw [hcnt] at hle
        rw [hold d (by omega), hocnt] at *
        exact inv4 d (by omega) hc0
  | submit a d' v t dsc ts =>
    simp only [exec]
    cases hr : submitOffer s a d' v t dsc ts with
    | error e => exact ⟨inv1, inv2, inv3, inv4⟩
    | ok s₂ =>
      obtain ⟨hcnt, hnewo, holdo, hnewd, holdd, hnewc, holdc, -, -⟩ :=
        submitOffer_ok_dest s a d' v t dsc ts s₂ hr
      rw [commit_ok]
      refine ⟨fun d => ?_, fun d p => ?_, fun d hc0 p => ?_, fun d hle hc0 => ?_⟩
      · by_cases hdd : d = d'
        · subst hdd
          rw [hnewd]
          intro hh
          exact inv1 d ⟨hh.1, hh.2⟩
        · rw [holdd d hdd]
          exact inv1 d
      · by_cases hk : d = d' ∧ p = a
        · obtain ⟨h1, h2⟩ := hk
          subst h1
          subst h2
          rw [hnewo]
          exact Or.inr rfl
        · rw [holdo d p hk]
          exact inv2 d p
      · by_cases hdd : d = d'
        · subst hdd
          rw [hnewc] at hc0
          omega
        · rw [holdc d hdd] at hc0
          rw [holdo d p (by tauto)]
          exact inv3 d hc0 p
      · by_cases hdd : d = d'
        · subst hdd
          rw [hnewc] at hc0
          omega
        · rw [holdc d hdd] at hc0
          rw [holdd d hdd, hcnt] at *
          exact inv4 d (by omega) hc0
  | reveal a d' =>
    simp only [exec]
    cases hr : revealOffer s a d' with
    | error e => exact ⟨inv1, inv2, inv3, inv4⟩
    | ok s₂ =>
      obtain ⟨hcnt, hnewo, holdo, hd, hc, -⟩ := revealOffer_ok_dest s a d' s₂ hr
      have hg := revealOffer_guards_of_ok s a d' s₂ hr
      have hane : a ≠ 0 := ha
      rw [commit_ok]
      refine ⟨?_, fun d p => ?_, fun d hc0 p => ?_, fun d hle hc0 => ?_⟩
      · rw [hd]
        exact inv1
      · by_cases hk : d = d' ∧ p = a
        · obtain ⟨h1, h2⟩ := hk
          subst h1
          subst h2
          rw [hnewo]
          exact Or.inr hg.1
        · rw [holdo d p hk]
          exact inv2 d p
      · rw [hc] at hc0
        by_cases hk : d = d' ∧ p = a
        · obtain ⟨h1, h2⟩ := hk
          subst h1
          subst h2
          have := inv3 d hc0 p
          rw [this] at hg
          exact absurd hg.1.symm hane
        · rw [holdo d p hk]
          exact inv3 d hc0 p
      · rw [hd, hc] at *
        rw [hcnt] at hle
        exact inv4 d hle hc0
  | finalize a d' =>
    simp only [exec]
    cases hr : finalizeDeal s a d' with
    | error e => exact ⟨inv1, inv2, inv3, inv4⟩
    | ok s₂ =>
      obtain ⟨hcnt, hnewd, holdd, hoff, hc, -⟩ := finalizeDeal_ok_dest s a d' s₂ hr
      have hg := finalizeDeal_guards_of_ok s a d' s₂ hr
      rw [commit_ok]
      refine ⟨fun d => ?_, ?_, ?_, fun d hle hc0 => ?_⟩
      · by_cases hdd : d = d'
        · subst hdd
          rw [hnewd]
          intro hh
          simp [hg.2.1] at hh
        · rw [holdd d hdd]
          exact inv1 d
      · rw [hoff]
        exact inv2
      · rw [hoff, hc]
        exact inv3
      · rw [hc] at hc0
        rw [hcnt] at hle
        by_cases hdd : d = d'
        · subst hdd
          have hz := inv4 d hle hc0
          have := hg.2.2
          rw [areAllOffersRevealed_iff] at this
          rw [hz] at this
          exact absurd rfl this.1
        · rw [holdd d hdd]
          exact inv4 d hle hc0
  | cancel a d' =>
    simp only [exec]
    cases hr : cancelDeal s a d' with
    | error e => exact ⟨inv1, inv2, inv3, inv4⟩
    | ok s₂ =>
      obtain ⟨hcnt, hnewd, holdd, hoff, hc, -⟩ := cancelDeal_ok_dest s a d' s₂ hr
      have hg := cancelDeal_guards_of_ok s a d' s₂ hr
      have hane : a ≠ 0 := ha
      rw [commit_ok]
      refine ⟨fun d => ?_, ?_, ?_, fun d hle hc0 => ?_⟩
      · by_cases hdd : d = d'
        · subst hdd
          rw [hnewd]
          intro hh
          simp [hg.2.1] at hh
        · rw [holdd d hdd]
          exact inv1 d
      · rw [hoff]
        exact inv2
      · rw [hoff, hc]
        exact inv3
      · rw [hc] at hc0
        rw [hcnt] at hle
        by_cases hdd : d = d'
        · subst hdd
          have hz := inv4 d hle hc0
          rw [hz] at hg
          exact absurd hg.1.symm hane
        · rw [holdd d hdd]
          exact inv4 d hle hc0

theorem reachable_inv (s : ContractState) (hs : Reachable s) : Inv s := by
  induction hs with
  | init => exact inv_init
  | step h ha ih => exact inv_step _ _ ih ha

/-! The ids handed out by successful createDeal calls along a
transaction list. -/

/-- Ids returned by the command if it is a successful createDeal,
else the empty list. -/
def createdNow (s : ContractState) : Cmd → List Nat
  | Cmd.create a n rp ts =>
    match createDeal s a n rp ts with
    | Except.ok p => [p.2]
    | Except.error _ => []
  | _ => []

/-- Ids returned by the successful createDeal calls of a command list,
in call order. -/
def traceCreatedIds : ContractState → List Cmd → List Nat
  | _, [] => []
  | s, c :: cs => createdNow s c ++ traceCreatedIds (exec s c) cs

theorem createdNow_mem (s : ContractState) (c : Cmd) (i : Nat)
    (hi : i ∈ createdNow s c) :
    i = s.dealCounter ∧ s.dealCounter < (exec s c).dealCounter := by
  cases c with
  | create a n rp ts =>
    simp only [createdNow] at hi
    cases hr : createDeal s a n rp ts with
    | ok p =>
      rw [hr] at hi
      simp at hi
      obtain ⟨h2, hcnt, -⟩ := createDeal_ok_dest s a n rp ts p hr
      subst hi
      refine ⟨h2, ?_⟩
      simp only [exec]
      rw [hr, commitP_ok, hcnt]
      omega
    | error e =>
      rw [hr] at hi
      simp at hi
  | submit a d v t dsc ts => simp [createdNow] at hi
  | reveal a d => simp [createdNow] at hi
  | finalize a d => simp [createdNow] at hi
  | cancel a d => simp [createdNow] at hi

theorem createdNow_pairwise (s : ContractState) (c : Cmd) :
    (createdNow s c).Pairwise (· < ·) := by
  cases c with
  | create a n rp ts =>
    simp only [createdNow]
    cases hr : createDeal s a n rp ts with
    | ok p => simp
    | error e => simp
  | submit a d v t dsc ts => simp [createdNow]
  | reveal a d => simp [createdNow]
  | finalize a d => simp [createdNow]
  | cancel a d => simp [createdNow]

theorem traceCreatedIds_lower (cs : List Cmd) :
    ∀ s i, i ∈ traceCreatedIds s cs → s.dealCounter ≤ i := by
  induction cs with
  | nil => intro s i hi; simp [traceCreatedIds] at hi
  | cons c cs ih =>
    intro s i hi
    simp only [traceCreatedIds, List.mem_append] at hi
    rcases hi with hi | hi
    · exact Nat.le_of_eq (createdNow_mem s c i hi).1.symm
    · exact le_trans (dealCounter_le_exec s c) (ih (exec s c) i hi)

theorem traceCreatedIds_pairwise (cs : List Cmd) :
    ∀ s, (traceCreatedIds s cs).Pairwise (· < ·) := by
  induction cs with
  | nil => intro s; simp [traceCreatedIds]
  | cons c cs ih =>
    intro s
    simp only [traceCreatedIds]
    rw [List.pairwise_append]
    refine ⟨createdNow_pairwise s c, ih (exec s c), fun a ha b hb => ?_⟩
    have h1 := createdNow_mem s c a ha
    have h2 := traceCreatedIds_lower cs (exec s c) b hb
    omega

/-! Claim theorems. -/

/-- C1: for every state, caller and dealId, finalizeDeal succeeds iff
the deal is neither finalized nor cancelled (status Open), its parties
list is non-empty, and every party in the list has revealed = true;
the result never depends on the caller identity and requiredParties
plays no role; on success the deal becomes Finalized (finalized flag
set, cancelled flag still clear). -/
theorem finalizeDeal_correct (s : ContractState) (sender dealId : Nat) :
    (isOk (finalizeDeal s sender dealId) = true ↔
      ((s.deals dealId).finalized = false ∧ (s.deals dealId).cancelled = false ∧
        (s.deals dealId).parties ≠ [] ∧
        ∀ p ∈ (s.deals dealId).parties, (s.offers dealId p).revealed = true)) ∧
    (∀ sender₂, finalizeDeal s sender dealId = finalizeDeal s sender₂ dealId) ∧
    (∀ s₂, finalizeDeal s sender dealId = Except.ok s₂ →
      (s₂.deals dealId).finalized = true ∧ (s₂.deals dealId).cancelled = false) := by
  refine ⟨?_, fun sender₂ => rfl, fun s₂ h => ?_⟩
  · rw [finalizeDeal_ok_iff]
    constructor
    · rintro ⟨h1, h2, h3⟩
      have h4 := (areAllOffersRevealed_iff s dealId).mp h3
      exact ⟨h1, h2, h4.1, h4.2⟩
    · rintro ⟨h1, h2, h3, h4⟩
      exact ⟨h1, h2, (areAllOffersRevealed_iff s dealId).mpr ⟨h3, h4⟩⟩
  · obtain ⟨-, hnewd, -, -, -, -⟩ := finalizeDeal_ok_dest s sender dealId s₂ h
    have hg := finalizeDeal_guards_of_ok s sender dealId s₂ h
    rw [hnewd]
    exact ⟨rfl, hg.2.1⟩

theorem finalizeDeal_correct_witness :
    isOk (finalizeDeal (run [Cmd.create 1 [5] 2 0, Cmd.submit 2 0 9 [3] [] 0,
      Cmd.reveal 2 0]) 7 0) = true :=
  ((finalizeDeal_correct (run [Cmd.create 1 [5] 2 0, Cmd.submit 2 0 9 [3] [] 0,
    Cmd.reveal 2 0]) 7 0).1).mpr (by decide)

/-- C2: in every reachable state, for every caller other than
address(0), revealOffer succeeds iff an Offer is stored for
(dealId, caller) — presence meaning a nonzero party field, the source
convention — that Offer is unrevealed, and the deal is not cancelled;
a Finalized but not cancelled deal does not block it.  On success the
revealed flag becomes true and every later revealOffer by the same
caller on the same deal fails with AlreadyRevealed. -/
theorem revealOffer_correct (s : ContractState) (hs : Reachable s)
    (sender dealId : Nat) (hns : sender ≠ 0) :
    (isOk (revealOffer s sender dealId) = true ↔
      ((s.offers dealId sender).party ≠ 0 ∧
        (s.offers dealId sender).revealed = false ∧
        (s.deals dealId).cancelled = false)) ∧
    (∀ s₂, revealOffer s sender dealId = Except.ok s₂ →
      ((s₂.offers dealId sender).revealed = true ∧
        ∀ (cs : List Cmd), revealOffer (cs.foldl exec s₂) sender dealId =
          Except.error DealError.AlreadyRevealed)) := by
  have hinv := (reachable_inv s hs).2.1 dealId sender
  constructor
  · rw [revealOffer_ok_iff]
    constructor
    · rintro ⟨h1, h2, h3⟩
      refine ⟨?_, h2, h3⟩
      rw [h1]
      exact hns
    · rintro ⟨h1, h2, h3⟩
      rcases hinv with h | h
      · exact absurd h h1
      · exact ⟨h, h2, h3⟩
  · intro s₂ h
    obtain ⟨-, hnewo, -, -, -, -⟩ := revealOffer_ok_dest s sender dealId s₂ h
    have hg := revealOffer_guards_of_ok s sender dealId s₂ h
    have hparty : (s₂.offers dealId sender).party = sender := by
      rw [hnewo]
      exact hg.1
    have hrev : (s₂.offers dealId sender).revealed = true := by
      rw [hnewo]
    refine ⟨hrev, fun cs => ?_⟩
    have hst := offer_key_stable_fold cs s₂ dealId sender hns hparty
    exact revealOffer_error_already _ sender dealId hst.1 (hst.2 hrev)

theorem revealOffer_correct_witness :
    isOk (revealOffer (run [Cmd.create 1 [5] 1 0, Cmd.submit 2 0 9 [3] [] 0]) 2 0) = true := by
  have h0 : Reachable initialState := Reachable.init
  have h1 : Reachable (exec initialState (Cmd.create 1 [5] 1 0)) :=
    Reachable.step h0 (by decide)
  have h2 : Reachable (exec (exec initialState (Cmd.create 1 [5] 1 0))
      (Cmd.submit 2 0 9 [3] [] 0)) :=
    Reachable.step h1 (by decide)
  exact ((revealOffer_correct (run [Cmd.create 1 [5] 1 0, Cmd.submit 2 0 9 [3] [] 0])
    h2 2 0 (by decide)).1).mpr (by decide)

/-- C3 counterexample: on the freshly deployed contract, where no
createDeal was ever performed, submitOffer on dealId 0 with a
non-empty title succeeds — deal existence is not checked — and it
creates the Offer record, the parties entry, the offer count and the
party-deals index entry. -/
theorem submitOffer_missing_existence_check :
    isOk (submitOffer initialState 1 0 42 [7] [] 0) = true ∧
    ((exec initialState (Cmd.submit 1 0 42 [7] [] 0)).offers 0 1).party = 1 ∧
    ((exec initialState (Cmd.submit 1 0 42 [7] [] 0)).deals 0).parties = [1] ∧
    (exec initialState (Cmd.submit 1 0 42 [7] [] 0)).offerCount 0 = 1 ∧
    (exec initialState (Cmd.submit 1 0 42 [7] [] 0)).partyDeals 1 = [0] := by
  decide

/-- C3 amended: submitOffer does not check deal existence.  In every
reachable state, on a deal id never created (at or above the counter)
and never submitted to, submitOffer succeeds iff the title is
non-empty; on success it creates the Offer record, makes the caller
the sole party, sets the offer count to 1 and appends the deal id to
the callers deal index. -/
theorem submitOffer_on_uncreated (s : ContractState) (hs : Reachable s)
    (sender dealId v : Nat) (t dsc : List Nat) (ts : Nat)
    (hd : s.dealCounter ≤ dealId) (hc : s.offerCount dealId = 0) :
    (isOk (submitOffer s sender dealId v t dsc ts) = true ↔ t ≠ []) ∧
    (∀ s₂, submitOffer s sender dealId v t dsc ts = Except.ok s₂ →
      s₂.offers dealId sender = ⟨sender, v, t, dsc, ts, false⟩ ∧
      (s₂.deals dealId).parties = [sender] ∧
      s₂.offerCount dealId = 1 ∧
      s₂.partyDeals sender = s.partyDeals sender ++ [dealId]) := by
  obtain ⟨-, -, inv3, inv4⟩ := reachable_inv s hs
  have hdz : s.deals dealId = Deal.zero := inv4 dealId hd hc
  have hoz : s.offers dealId sender = Offer.zero := inv3 dealId hc sender
  constructor
  · rw [submitOffer_ok_iff, hdz, hoz]
    simp [Deal.zero, Offer.zero, List.length_pos]
  · intro s₂ h
    obtain ⟨-, hnewo, -, hnewd, -, hcnt, -, hpd, -⟩ :=
      submitOffer_ok_dest s sender dealId v t dsc ts s₂ h
    refine ⟨hnewo, ?_, ?_, hpd⟩
    · rw [hnewd, hdz]
      rfl
    · rw [hcnt, hc]

theorem submitOffer_on_uncreated_witness :
    isOk (submitOffer (exec initialState (Cmd.create 1 [5] 1 0)) 2 5 9 [3] [] 0) = true := by
  have h1 : Reachable (exec initialState (Cmd.create 1 [5] 1 0)) :=
    Reachable.step Reachable.init (by decide)
  exact ((submitOffer_on_uncreated (exec initialState (Cmd.create 1 [5] 1 0))
    h1 2 5 9 [3] [] 0 (by decide) (by decide)).1).mpr (by decide)

/-- C4 counterexample: a deal id never created can be finalized
directly (submit, reveal, finalize on id 0 while the counter is still
0), and a later createDeal allocates that same id and resets its
finalized flag — a later command clears an already-set status flag. -/
theorem finalized_flag_cleared_by_create :
    ((run [Cmd.submit 2 0 9 [3] [] 0, Cmd.reveal 2 0, Cmd.finalize 2 0]).deals 0).finalized
      = true ∧
    ((run [Cmd.submit 2 0 9 [3] [] 0, Cmd.reveal 2 0, Cmd.finalize 2 0,
      Cmd.create 1 [5] 1 0]).deals 0).finalized = false := by
  decide

/-- C4 amended: in every reachable state the finalized and cancelled
flags of a deal are never both set, and for every deal id that has
actually been created (id below dealCounter), once finalized or
cancelled is set no later command sequence changes either flag or the
parties list.  (For ids not yet allocated, the flags can be set
through direct submits and a later createDeal reaching that id resets
them, as the counterexample shows.) -/
theorem status_exclusive_and_terminal (s : ContractState) (hs : Reachable s) :
    (∀ d, ¬((s.deals d).finalized = true ∧ (s.deals d).cancelled = true)) ∧
    (∀ d, d < s.dealCounter →
      ((s.deals d).finalized = true ∨ (s.deals d).cancelled = true) →
      ∀ (cs : List Cmd), ((cs.foldl exec s).deals d).finalized = (s.deals d).finalized ∧
        ((cs.foldl exec s).deals d).cancelled = (s.deals d).cancelled ∧
        ((cs.foldl exec s).deals d).parties = (s.deals d).parties) := by
  refine ⟨(reachable_inv s hs).1, fun d hd h cs => ?_⟩
  rw [terminal_deal_stable_fold cs s d hd h]
  exact ⟨rfl, rfl, rfl⟩

theorem status_exclusive_and_terminal_witness :
    (([Cmd.cancel 1 0].foldl exec (run [Cmd.create 1 [5] 1 0, Cmd.submit 2 0 9 [3] [] 0,
      Cmd.reveal 2 0, Cmd.finalize 3 0])).deals 0).finalized =
      ((run [Cmd.create 1 [5] 1 0, Cmd.submit 2 0 9 [3] [] 0, Cmd.reveal 2 0,
        Cmd.finalize 3 0]).deals 0).finalized := by
  have h0 : Reachable initialState := Reachable.init
  have h1 : Reachable (exec initialState (Cmd.create 1 [5] 1 0)) :=
    Reachable.step h0 (by decide)
  have h2 : Reachable (exec (exec initialState (Cmd.create 1 [5] 1 0))
      (Cmd.submit 2 0 9 [3] [] 0)) :=
    Reachable.step h1 (by decide)
  have h3 : Reachable (exec (exec (exec initialState (Cmd.create 1 [5] 1 0))
      (Cmd.submit 2 0 9 [3] [] 0)) (Cmd.reveal 2 0)) :=
    Reachable.step h2 (by decide)
  have h4 : Reachable (exec (exec (exec (exec initialState (Cmd.create 1 [5] 1 0))
      (Cmd.submit 2 0 9 [3] [] 0)) (Cmd.reveal 2 0)) (Cmd.finalize 3 0)) :=
    Reachable.step h3 (by decide)
  exact ((status_exclusive_and_terminal (run [Cmd.create 1 [5] 1 0,
    Cmd.submit 2 0 9 [3] [] 0, Cmd.reveal 2 0, Cmd.finalize 3 0]) h4).2 0
    (by decide) (Or.inl (by decide)) [Cmd.cancel 1 0]).1

/-- C5 counterexample: party 2 submits to deal 0, the creator cancels
the deal, and the second submit by party 2 fails with the cancellation
error checked first, not with DuplicateOffer. -/
theorem second_submit_not_always_duplicate :
    isOk (submitOffer (run [Cmd.create 1 [5] 1 0]) 2 0 9 [3] [] 0) = true ∧
    submitOffer (run [Cmd.create 1 [5] 1 0, Cmd.submit 2 0 9 [3] [] 0, Cmd.cancel 1 0])
      2 0 9 [3] [] 0 = Except.error DealError.DealIsCancelled ∧
    DealError.DealIsCancelled ≠ DealError.DuplicateOffer :=
  ⟨by decide, rfl, by decide⟩

/-- C5 amended: at most one submitOffer per (dealId, party) ever
succeeds: after a successful submit by a caller other than address(0),
every later submit by the same party on the same deal fails — with
DuplicateOffer whenever the deal is neither finalized nor cancelled at
that moment (the status guards run first), leaving the state unchanged
by revert semantics. -/
theorem submitOffer_at_most_once (s : ContractState) (sender dealId v : Nat)
    (t dsc : List Nat) (ts : Nat) (hns : sender ≠ 0) (s₂ : ContractState)
    (h : submitOffer s sender dealId v t dsc ts = Except.ok s₂) :
    ∀ (cs : List Cmd) (v₂ : Nat) (t₂ dsc₂ : List Nat) (ts₂ : Nat),
      isOk (submitOffer (cs.foldl exec s₂) sender dealId v₂ t₂ dsc₂ ts₂) = false ∧
      (((cs.foldl exec s₂).deals dealId).finalized = false →
        ((cs.foldl exec s₂).deals dealId).cancelled = false →
        submitOffer (cs.foldl exec s₂) sender dealId v₂ t₂ dsc₂ ts₂ =
          Except.error DealError.DuplicateOffer) := by
  intro cs v₂ t₂ dsc₂ ts₂
  have hparty : (s₂.offers dealId sender).party = sender := by
    rw [(submitOffer_ok_dest s sender dealId v t dsc ts s₂ h).2.1]
  have hst := (offer_key_stable_fold cs s₂ dealId sender hns hparty).1
  have hne : ((cs.foldl exec s₂).offers dealId sender).party ≠ 0 := by
    rw [hst]
    exact hns
  constructor
  · apply Bool.eq_false_iff.mpr
    intro htrue
    have hcond := (submitOffer_ok_iff (cs.foldl exec s₂) sender dealId v₂ t₂ dsc₂ ts₂).mp htrue
    exact hne hcond.2.2.1
  · intro hf hc
    exact submitOffer_error_duplicate (cs.foldl exec s₂) sender dealId v₂ t₂ dsc₂ ts₂ hf hc hne

theorem submitOffer_at_most_once_witness :
    isOk (submitOffer (([Cmd.reveal 2 0] : List Cmd).foldl exec
      (run [Cmd.create 1 [5] 1 0, Cmd.submit 2 0 9 [3] [] 0])) 2 0 8 [4] [] 1) = false := by
  have h : submitOffer (run [Cmd.create 1 [5] 1 0]) 2 0 9 [3] [] 0 =
      Except.ok (run [Cmd.create 1 [5] 1 0, Cmd.submit 2 0 9 [3] [] 0]) := rfl
  exact (submitOffer_at_most_once (run [Cmd.create 1 [5] 1 0]) 2 0 9 [3] [] 0
    (by decide) (run [Cmd.create 1 [5] 1 0, Cmd.submit 2 0 9 [3] [] 0]) h
    [Cmd.reveal 2 0] 8 [4] [] 1).1

/-- C6: for every state, caller and dealId, cancelDeal succeeds iff
the caller equals the deal creator and the deal is neither finalized
nor cancelled (status Open); any caller other than the creator gets
Unauthorized and the state is unchanged; on success the deal becomes
Cancelled. -/
theorem cancelDeal_correct (s : ContractState) (sender dealId : Nat) :
    (isOk (cancelDeal s sender dealId) = true ↔
      ((s.deals dealId).creator = sender ∧ (s.deals dealId).finalized = false ∧
        (s.deals dealId).cancelled = false)) ∧
    ((s.deals dealId).creator ≠ sender →
      cancelDeal s sender dealId = Except.error DealError.Unauthorized ∧
      exec s (Cmd.cancel sender dealId) = s) ∧
    (∀ s₂, cancelDeal s sender dealId = Except.ok s₂ →
      (s₂.deals dealId).cancelled = true ∧ (s₂.deals dealId).finalized = false) := by
  refine ⟨cancelDeal_ok_iff s sender dealId, fun hne => ?_, fun s₂ h => ?_⟩
  · have he := cancelDeal_error_unauthorized s sender dealId hne
    refine ⟨he, ?_⟩
    simp only [exec]
    rw [he, commit_error]
  · obtain ⟨-, hnewd, -, -, -, -⟩ := cancelDeal_ok_dest s sender dealId s₂ h
    have hg := cancelDeal_guards_of_ok s sender dealId s₂ h
    rw [hnewd]
    exact ⟨rfl, hg.2.1⟩

theorem cancelDeal_correct_witness :
    cancelDeal (run [Cmd.create 1 [5] 1 0]) 2 0 = Except.error DealError.Unauthorized ∧
    isOk (cancelDeal (run [Cmd.create 1 [5] 1 0]) 1 0) = true :=
  ⟨((cancelDeal_correct (run [Cmd.create 1 [5] 1 0]) 2 0).2.1 (by decide)).1,
    ((cancelDeal_correct (run [Cmd.create 1 [5] 1 0]) 1 0).1).mpr (by decide)⟩

/-- C7: createDeal succeeds iff 1 ≤ requiredParties ≤ 100 and
0 < length(name) ≤ 256 — so a 256-unit name and requiredParties = 100
are accepted while a 257-unit name, 101 parties, 0 parties or an empty
name are rejected; every rejection is one of the InvalidInput errors,
and a failed call leaves the state (in particular the id counter)
unchanged. -/
theorem createDeal_correct (s : ContractState) (sender : Nat) (n : List Nat)
    (rp ts : Nat) :
    (isOk (createDeal s sender n rp ts) = true ↔
      (1 ≤ rp ∧ rp ≤ 100 ∧ 0 < n.length ∧ n.length ≤ 256)) ∧
    (∀ e, createDeal s sender n rp ts = Except.error e → e.isInvalidInput = true) ∧
    (isOk (createDeal s sender n rp ts) = false →
      exec s (Cmd.create sender n rp ts) = s) := by
  refine ⟨createDeal_ok_iff s sender n rp ts,
    createDeal_error_invalid s sender n rp ts, fun hf => ?_⟩
  simp only [exec]
  cases hr : createDeal s sender n rp ts with
  | ok q =>
    rw [hr] at hf
    simp at hf
  | error e => simp

theorem createDeal_correct_witness :
    isOk (createDeal initialState 1 (List.replicate 256 0) 100 0) = true ∧
    isOk (createDeal initialState 1 (List.replicate 257 0) 100 0) = false ∧
    exec initialState (Cmd.create 1 (List.replicate 257 0) 100 0) = initialState ∧
    isOk (createDeal initialState 1 (List.replicate 10 0) 101 0) = false := by
  have hacc := ((createDeal_correct initialState 1 (List.replicate 256 0) 100 0).1).mpr
    (by refine ⟨by omega, by omega, ?_, ?_⟩ <;> rw [List.length_replicate] <;> omega)
  have hrej : isOk (createDeal initialState 1 (List.replicate 257 0) 100 0) = false := by
    apply Bool.eq_false_iff.mpr
    intro htrue
    have hcond := ((createDeal_correct initialState 1 (List.replicate 257 0) 100 0).1).mp htrue
    have h2 := hcond.2.2.2
    rw [List.length_replicate] at h2
    omega
  have hrej2 : isOk (createDeal initialState 1 (List.replicate 10 0) 101 0) = false := by
    apply Bool.eq_false_iff.mpr
    intro htrue
    have hcond := ((createDeal_correct initialState 1 (List.replicate 10 0) 101 0).1).mp htrue
    omega
  exact ⟨hacc, hrej,
    (createDeal_correct initialState 1 (List.replicate 257 0) 100 0).2.2 hrej, hrej2⟩

/-- C8 counterexample: on the freshly deployed contract, where no
createDeal was ever performed, getDeal 0 does not fail with NotFound:
it returns the zero-initialized deal record. -/
theorem getDeal_returns_default :
    getDeal initialState 0 = Except.ok ⟨[], [], 0, 0, false, false, 0⟩ := rfl

/-- C8 amended: getDeal never fails; in every reachable state, for a
deal id never created (at or above the counter) and never submitted
to, it returns the zero-initialized record (empty name, no parties,
zero requiredParties, creator address(0)) rather than failing. -/
theorem getDeal_on_unused (s : ContractState) (hs : Reachable s) (dealId : Nat)
    (hd : s.dealCounter ≤ dealId) (hc : s.offerCount dealId = 0) :
    getDeal s dealId = Except.ok ⟨[], [], 0, 0, false, false, 0⟩ := by
  have hz := (reachable_inv s hs).2.2.2 dealId hd hc
  unfold getDeal
  rw [hz]
  rfl

theorem getDeal_on_unused_witness :
    getDeal (exec initialState (Cmd.create 1 [5] 1 0)) 3 =
      Except.ok ⟨[], [], 0, 0, false, false, 0⟩ := by
  have h1 : Reachable (exec initialState (Cmd.create 1 [5] 1 0)) :=
    Reachable.step Reachable.init (by decide)
  exact getDeal_on_unused (exec initialState (Cmd.create 1 [5] 1 0)) h1 3
    (by decide) (by decide)

/-- C9: along any transaction list executed from the freshly deployed
contract, the ids returned by the successful createDeal calls are
pairwise strictly increasing in call order — hence pairwise distinct,
and an id once issued is never issued again. -/
theorem createDeal_ids_strictly_increasing (cs : List Cmd) :
    (traceCreatedIds initialState cs).Pairwise (· < ·) ∧
    (traceCreatedIds initialState cs).Nodup := by
  have h := traceCreatedIds_pairwise cs initialState
  exact ⟨h, h.imp Nat.ne_of_lt⟩

/-- C10 counterexample: deal 0 is created and at once cancelled, so
its parties list is empty, yet finalizeDeal fails with the
cancellation error, not with RevealsIncomplete — the finalized and
cancelled guards run before the reveal guard. -/
theorem finalize_empty_cancelled_not_revealsIncomplete :
    ((run [Cmd.create 1 [5] 1 0, Cmd.cancel 1 0]).deals 0).parties = [] ∧
    finalizeDeal (run [Cmd.create 1 [5] 1 0, Cmd.cancel 1 0]) 2 0 =
      Except.error DealError.DealIsCancelled ∧
    DealError.DealIsCancelled ≠ DealError.RevealsIncomplete :=
  ⟨by decide, rfl, by decide⟩

/-- C10 amended: on a deal whose parties list is empty and which is
neither finalized nor cancelled — which covers every never-touched
deal id — finalizeDeal fails with RevealsIncomplete, because
areAllOffersRevealed is false on an empty list and that guard runs
before the emptiness guard; and the NoOffers branch is dead code: no
finalizeDeal call ever returns NoOffers. -/
theorem finalize_empty_parties (s : ContractState) (sender dealId : Nat) :
    ((s.deals dealId).parties = [] → (s.deals dealId).finalized = false →
      (s.deals dealId).cancelled = false →
      finalizeDeal s sender dealId = Except.error DealError.RevealsIncomplete) ∧
    finalizeDeal s sender dealId ≠ Except.error DealError.NoOffers := by
  refine ⟨fun hp hf hc => ?_, finalizeDeal_never_noOffers s sender dealId⟩
  have hA : areAllOffersRevealed s dealId = false := by
    unfold areAllOffersRevealed
    simp [hp]
  unfold finalizeDeal
  simp [hf, hc, hA]

theorem finalize_empty_parties_witness :
    finalizeDeal (run [Cmd.create 1 [5] 1 0]) 2 0 =
      Except.error DealError.RevealsIncomplete :=
  (finalize_empty_parties (run [Cmd.create 1 [5] 1 0]) 2 0).1
    (by decide) (by decide) (by decide)

end SecretDeal
